import Mathlib

/-!
Verification of the AlgoTrading core (risk manager, order manager,
strategies, backtester) against its natural-language specification.

Numeric model: Python floats are idealized as exact rationals (ℚ).
Where IEEE-754 special values (NaN, ±inf) are semantically relevant
(pandas/numpy elementwise division by zero, min of an empty series,
zero-variance Sharpe denominators), they are modeled explicitly by the
extended-value type `EF` and by `SharpeVal` below, following IEEE
semantics (x/0 = ±inf for x ≠ 0, 0/0 = NaN, NaN propagates, NaN
comparisons are false).  Python `int(x)` on a float is truncation
toward zero, modeled by `pyInt`.  `datetime.now()` is modeled by an
explicit `now : ℕ` argument threaded into the operations that read the
clock.  String formatting of the kind f-strings perform (thousand
separators, two decimals, rupee sign) is abbreviated by `toString` of
the rational; only identity/distinctness of the reason strings matters
to the claims.
-/

/-- Truncation toward zero, the semantics of Python `int()` on a float. -/
def pyInt (q : ℚ) : ℤ := if q < 0 then ⌈q⌉ else ⌊q⌋

/-! ## Risk manager (src/risk_manager.py)

`RiskManager.__init__` reads `config.CAPITAL = 100000`,
`MAX_RISK_PER_TRADE = 2`, `MAX_DAILY_LOSS = 5`, `MAX_OPEN_POSITIONS = 5`
(env-var defaults) and starts with `daily_pnl = 0`, `open_positions = 0`. -/

structure RiskState where
  capital : ℚ
  maxRiskPerTrade : ℚ
  maxDailyLoss : ℚ
  maxOpenPositions : ℤ
  dailyPnl : ℚ
  openPositions : ℤ
deriving DecidableEq

/-- RiskManager.__init__ with the config defaults. -/
def RiskState.init (capital : ℚ) : RiskState :=
  { capital := capital, maxRiskPerTrade := 2, maxDailyLoss := 5,
    maxOpenPositions := 5, dailyPnl := 0, openPositions := 0 }

/-- RiskManager.calculate_position_size: `int(risk_amount / price_risk)`,
returning 0 (with a logged warning) when the price risk is zero. -/
def calculatePositionSize (r : RiskState) (entryPrice stopLossPrice : ℚ)
    (riskPercentage : ℚ) : ℤ :=
  let riskAmount := r.capital * (riskPercentage / 100)
  let priceRisk := |entryPrice - stopLossPrice|
  if priceRisk = 0 then 0
  else pyInt (riskAmount / priceRisk)

/-- RiskManager.can_open_position: false once the open-position count
reaches the maximum, or once the daily loss percentage reaches the
daily-loss limit. -/
def canOpenPosition (r : RiskState) : Bool :=
  if r.openPositions ≥ r.maxOpenPositions then false
  else if (r.dailyPnl / r.capital) * 100 ≤ -r.maxDailyLoss then false
  else true

/-- RiskManager.update_daily_pnl. -/
def updateDailyPnl (r : RiskState) (pnl : ℚ) : RiskState :=
  { r with dailyPnl := r.dailyPnl + pnl }

/-- RiskManager.update_capital. -/
def updateCapital (r : RiskState) (newCapital : ℚ) : RiskState :=
  { r with capital := newCapital }

/-- RiskManager.add_position. -/
def addPosition (r : RiskState) : RiskState :=
  { r with openPositions := r.openPositions + 1 }

/-- RiskManager.close_position: decrements only when the count is
strictly positive. -/
def closePositionRM (r : RiskState) : RiskState :=
  if 0 < r.openPositions then { r with openPositions := r.openPositions - 1 }
  else r

/-- RiskManager.reset_daily_pnl. -/
def resetDailyPnl (r : RiskState) : RiskState :=
  { r with dailyPnl := 0 }

/-- Rejection reason shared by both branches of can_open_position. -/
def riskLimitMsg : String := "Cannot open new position due to risk limits"

/-- Rejection reason of the max-order-value check (f-string formatting
of the two amounts abbreviated by toString). -/
def exceedsMsg (orderValue maxOrderValue : ℚ) : String :=
  "Order value ₹" ++ toString orderValue ++ " exceeds limit ₹" ++ toString maxOrderValue

/-- Rejection reason of the min-order-value check. -/
def tooSmallMsg : String := "Order value too small (minimum ₹500)"

/-- Approval message. -/
def validatedMsg : String := "Order validated successfully"

/-- RiskManager.validate_order: can_open_position, then order value
above 30% of capital, then order value below ₹500. -/
def validateOrder (r : RiskState) (_symbol : String) (quantity price : ℚ) :
    Bool × String :=
  if ¬ canOpenPosition r then (false, riskLimitMsg)
  else
    let orderValue := quantity * price
    let maxOrderValue := r.capital * (3/10)
    if orderValue > maxOrderValue then (false, exceedsMsg orderValue maxOrderValue)
    else if orderValue < 500 then (false, tooSmallMsg)
    else (true, validatedMsg)

/-- State-mutating operations of RiskManager (the remaining methods are
pure queries). -/
inductive RMOp where
  | updPnl (pnl : ℚ)
  | updCapital (c : ℚ)
  | addPos
  | closePos
  | resetPnl
deriving DecidableEq

def applyRMOp (r : RiskState) : RMOp → RiskState
  | .updPnl p => updateDailyPnl r p
  | .updCapital c => updateCapital r c
  | .addPos => addPosition r
  | .closePos => closePositionRM r
  | .resetPnl => resetDailyPnl r

def applyRMOps (r : RiskState) (ops : List RMOp) : RiskState :=
  ops.foldl applyRMOp r

/-! ## Order manager (src/order_manager.py)

`config.TRADING_MODE` defaults to "paper"; the paper execution path is
modeled.  The live path delegates to the external broker collaborator,
which the specification places out of scope (§6).  `price or 0` in
`place_order` coincides with `price` for every rational price (0 or 0
is 0), so `price` is modeled as a plain rational. -/

structure Position where
  symbol : String
  quantity : ℚ
  entryPrice : ℚ
  entryTime : ℕ
  stopLoss : Option ℚ
  takeProfit : Option ℚ
  orderId : String
  status : String
  exitPrice : Option ℚ
  exitTime : Option ℕ
  pnl : ℚ
deriving DecidableEq

/-- Position.__init__ (status OPEN, no exit data, pnl 0). -/
def Position.initP (symbol : String) (quantity entryPrice : ℚ) (entryTime : ℕ)
    (stopLoss takeProfit : Option ℚ) (orderId : String) : Position :=
  { symbol := symbol, quantity := quantity, entryPrice := entryPrice,
    entryTime := entryTime, stopLoss := stopLoss, takeProfit := takeProfit,
    orderId := orderId, status := "OPEN", exitPrice := none, exitTime := none,
    pnl := 0 }

/-- Position.close: record exit data, realized pnl
`(exit_price - entry_price) * quantity`, status CLOSED. -/
def Position.close (p : Position) (exitPrice : ℚ) (exitTime : ℕ) : Position :=
  { p with
    exitPrice := some exitPrice
    exitTime := some exitTime
    pnl := (exitPrice - p.entryPrice) * p.quantity
    status := "CLOSED" }

/-- One entry of OrderManager.orders (the dict appended by place_order). -/
structure Order where
  orderId : Option String
  symbol : String
  transactionType : String
  quantity : ℚ
  price : ℚ
  orderType : String
  time : ℕ
  status : String
deriving DecidableEq

/-- Lookup in a Python dict modeled as an association list. -/
def dictLookup {α : Type} : List (String × α) → String → Option α
  | [], _ => none
  | kv :: rest, k => if kv.1 = k then some kv.2 else dictLookup rest k

/-- Python `d[k] = v`: replace in place if the key exists, else append. -/
def dictInsert {α : Type} : List (String × α) → String → α → List (String × α)
  | [], k, v => [(k, v)]
  | kv :: rest, k, v =>
      if kv.1 = k then (k, v) :: rest else kv :: dictInsert rest k v

/-- Python `del d[k]` (keys are unique, so filtering is the deletion). -/
def dictErase {α : Type} : List (String × α) → String → List (String × α)
  | [], _ => []
  | kv :: rest, k => if kv.1 = k then dictErase rest k else kv :: dictErase rest k

/-- OrderManager state: injected risk manager (optional, as in
__init__), the symbol-keyed open-position dict, the closed-position
log, and the order log. -/
structure OMState where
  riskManager : Option RiskState
  positions : List (String × Position)
  closedPositions : List Position
  orders : List Order
deriving DecidableEq

/-- OrderManager.__init__. -/
def OMState.init (riskManager : Option RiskState) : OMState :=
  { riskManager := riskManager, positions := [], closedPositions := [],
    orders := [] }

/-- OrderManager._place_paper_order, minus the order-id generation
(done by the caller here so that the id can also be recorded in the
order log): BUY stores a fresh OPEN position under the symbol
(overwriting any existing entry) and increments the risk manager's
counter; SELL closes the position if one exists, feeds its pnl to the
risk manager, decrements the counter, archives the position and
removes it from the dict; otherwise no mutation. -/
def placePaperOrder (st : OMState) (symbol transactionType : String)
    (quantity price : ℚ) (stopLoss takeProfit : Option ℚ)
    (orderId : String) (now : ℕ) : OMState :=
  if transactionType = "BUY" then
    let position := Position.initP symbol quantity price now stopLoss takeProfit orderId
    let st1 := { st with positions := dictInsert st.positions symbol position }
    match st1.riskManager with
    | some rm => { st1 with riskManager := some (addPosition rm) }
    | none => st1
  else if transactionType = "SELL" then
    match dictLookup st.positions symbol with
    | some position =>
        let closed := Position.close position price now
        let rm' := match st.riskManager with
          | some rm => some (closePositionRM (updateDailyPnl rm closed.pnl))
          | none => none
        { st with
          riskManager := rm'
          closedPositions := st.closedPositions ++ [closed]
          positions := dictErase st.positions symbol }
    | none => st
  else st

/-- The paper order id `f"PAPER_{datetime.now().strftime(...)}"`,
with the clock reading modeled by `now`. -/
def paperOrderId (now : ℕ) : String := "PAPER_" ++ toString now

/-- OrderManager.place_order in paper mode: a BUY is first validated by
the risk manager when one is present (returning None and mutating
nothing on rejection); then the paper order executes and a record with
status PLACED is appended to the order log. -/
def placeOrder (st : OMState) (symbol transactionType : String)
    (quantity price : ℚ) (stopLoss takeProfit : Option ℚ)
    (orderType : String) (now : ℕ) : Option String × OMState :=
  let rejected : Bool :=
    match st.riskManager with
    | some rm =>
        transactionType = "BUY" ∧ (validateOrder rm symbol quantity price).1 = false
    | none => false
  if rejected then (none, st)
  else
    let orderId := paperOrderId now
    let st1 := placePaperOrder st symbol transactionType quantity price
                 stopLoss takeProfit orderId now
    let st2 := { st1 with orders := st1.orders ++
                  [{ orderId := some orderId, symbol := symbol,
                     transactionType := transactionType, quantity := quantity,
                     price := price, orderType := orderType, time := now,
                     status := "PLACED" }] }
    (some orderId, st2)

/-! ## Extended float values

IEEE-754 special values as produced by pandas/numpy elementwise
arithmetic.  ℚ has no signed zero; the divisions by zero arising in
this code divide by the positive zero, so x/0 is +inf for x > 0 and
-inf for x < 0, and 0/0 is NaN. -/

inductive EF where
  | nan
  | pinf
  | ninf
  | val (q : ℚ)
deriving DecidableEq

def EF.neg : EF → EF
  | nan => nan
  | pinf => ninf
  | ninf => pinf
  | val q => val (-q)

def EF.add : EF → EF → EF
  | nan, _ => nan
  | _, nan => nan
  | pinf, ninf => nan
  | ninf, pinf => nan
  | pinf, _ => pinf
  | _, pinf => pinf
  | ninf, _ => ninf
  | _, ninf => ninf
  | val a, val b => val (a + b)

def EF.sub (x y : EF) : EF := EF.add x (EF.neg y)

def EF.div : EF → EF → EF
  | nan, _ => nan
  | _, nan => nan
  | pinf, pinf => nan
  | pinf, ninf => nan
  | ninf, pinf => nan
  | ninf, ninf => nan
  | pinf, val b => if b < 0 then ninf else pinf
  | ninf, val b => if b < 0 then pinf else ninf
  | val _, pinf => val 0
  | val _, ninf => val 0
  | val a, val b =>
      if b = 0 then (if a = 0 then nan else if 0 < a then pinf else ninf)
      else val (a / b)

/-- Comparison of a float column entry against a scalar: NaN compares
false under every relation, as in pandas. -/
def EF.gtQ : EF → ℚ → Bool
  | .nan, _ => false
  | .pinf, _ => true
  | .ninf, _ => false
  | .val a, q => decide (q < a)

def EF.ltQ : EF → ℚ → Bool
  | .nan, _ => false
  | .pinf, _ => false
  | .ninf, _ => true
  | .val a, q => decide (a < q)

def EF.geQ : EF → ℚ → Bool
  | .nan, _ => false
  | .pinf, _ => true
  | .ninf, _ => false
  | .val a, q => decide (q ≤ a)

def EF.leQ : EF → ℚ → Bool
  | .nan, _ => false
  | .pinf, _ => false
  | .ninf, _ => true
  | .val a, q => decide (a ≤ q)

/-! ## Signal engine (src/strategies/technical_strategies.py)

Rolling windows produce NaN until the window is full; those entries are
`none`.  Comparisons between two indicator columns treat `none` (NaN)
as false under every relation, as pandas does, and `shift(1)` at index
0 is NaN. -/

/-- Entry i of `series.rolling(window=w).mean()`: NaN until w
observations are available, then the mean of the w entries ending at i. -/
def rmAt (w : ℕ) (xs : List ℚ) (i : ℕ) : Option ℚ :=
  if i + 1 < w then none
  else some (((xs.drop (i + 1 - w)).take w).sum / (w : ℚ))

/-- The column `series.rolling(window=w).mean()`. -/
def rollingMean (w : ℕ) (xs : List ℚ) : List (Option ℚ) :=
  (List.range xs.length).map (rmAt w xs)

/-- The recurrence of `series.ewm(span=s, adjust=False).mean()`:
e(0) = x(0), e(i) = α·x(i) + (1-α)·e(i-1) with α = 2/(s+1), computed
sequentially over the whole series. -/
def ewmMean (span : ℕ) : List ℚ → List ℚ
  | [] => []
  | x :: rest =>
      List.scanl (fun e y => (2 / ((span : ℚ) + 1)) * y
                    + (1 - 2 / ((span : ℚ) + 1)) * e) x rest

/-- Entry i of `delta.where(delta > 0, 0)` for `delta = close.diff()`:
index 0 is 0 (NaN fails the condition and is replaced by the fill
value), later indices keep the positive increments. -/
def gainAt (xs : List ℚ) (i : ℕ) : ℚ :=
  if i = 0 then 0
  else if 0 < xs.getD i 0 - xs.getD (i - 1) 0
    then xs.getD i 0 - xs.getD (i - 1) 0 else 0

/-- The gain column. -/
def gains (xs : List ℚ) : List ℚ :=
  (List.range xs.length).map (gainAt xs)

/-- Entry i of `-delta.where(delta < 0, 0)`. -/
def lossAt (xs : List ℚ) (i : ℕ) : ℚ :=
  if i = 0 then 0
  else if xs.getD i 0 - xs.getD (i - 1) 0 < 0
    then -(xs.getD i 0 - xs.getD (i - 1) 0) else 0

/-- The loss column. -/
def losses (xs : List ℚ) : List ℚ :=
  (List.range xs.length).map (lossAt xs)

/-- Entry i of the RSI column: `100 - 100/(1 + gain_avg/loss_avg)`
computed with IEEE elementwise arithmetic (NaN while either rolling
window is unfilled). -/
def rsiAt (period : ℕ) (xs : List ℚ) (i : ℕ) : EF :=
  match rmAt period (gains xs) i, rmAt period (losses xs) i with
  | some g, some l =>
      EF.sub (EF.val 100)
        (EF.div (EF.val 100) (EF.add (EF.val 1) (EF.div (EF.val g) (EF.val l))))
  | _, _ => EF.nan

/-- The RSI column of RSIStrategy.calculate_indicators. -/
def rsiCol (period : ℕ) (xs : List ℚ) : List EF :=
  (List.range xs.length).map (rsiAt period xs)

/-- NaN-aware comparisons of two optional column entries (false when
either side is NaN), as in pandas. -/
def oGt (x y : Option ℚ) : Bool :=
  match x, y with
  | some a, some b => decide (b < a)
  | _, _ => false

def oLt (x y : Option ℚ) : Bool :=
  match x, y with
  | some a, some b => decide (a < b)
  | _, _ => false

def oGe (x y : Option ℚ) : Bool :=
  match x, y with
  | some a, some b => decide (b ≤ a)
  | _, _ => false

def oLe (x y : Option ℚ) : Bool :=
  match x, y with
  | some a, some b => decide (a ≤ b)
  | _, _ => false

/-- Signal entry of MovingAverageCrossover.generate_signals at index i:
buy (1) when the short column crosses above the long column, sell (-1)
when it crosses below; both `.loc` assignments write into an
all-zero column and the sell assignment is executed last, so it wins
when both conditions hold. -/
def crossSigAt (a b : List (Option ℚ)) (i : ℕ) : ℤ :=
  if oLt (a.getD i none) (b.getD i none)
      && oGe (if i = 0 then none else a.getD (i - 1) none)
             (if i = 0 then none else b.getD (i - 1) none) then -1
  else if oGt (a.getD i none) (b.getD i none)
      && oLe (if i = 0 then none else a.getD (i - 1) none)
             (if i = 0 then none else b.getD (i - 1) none) then 1
  else 0

/-- Signal entry of RSIStrategy.generate_signals at index i. -/
def rsiSigAt (r : List EF) (oversold overbought : ℚ) (i : ℕ) : ℤ :=
  if EF.ltQ (r.getD i EF.nan) overbought
      && EF.geQ (if i = 0 then EF.nan else r.getD (i - 1) EF.nan) overbought then -1
  else if EF.gtQ (r.getD i EF.nan) oversold
      && EF.leQ (if i = 0 then EF.nan else r.getD (i - 1) EF.nan) oversold then 1
  else 0

inductive MAType where
  | sma
  | ema
deriving DecidableEq

/-- The strategy variants named by the claim: MovingAverageCrossover
(ma_type SMA or EMA) and RSIStrategy, with their numeric parameters. -/
inductive StratSpec where
  | maCross (shortWindow longWindow : ℕ) (maType : MAType)
  | rsi (period : ℕ) (oversold overbought : ℚ)
deriving DecidableEq

/-- calculate_indicators followed by generate_signals: the whole signal
column of the chosen strategy over a close-price series. -/
def stratSignals : StratSpec → List ℚ → List ℤ
  | .maCross sw lw .sma, xs =>
      (List.range xs.length).map
        (crossSigAt (rollingMean sw xs) (rollingMean lw xs))
  | .maCross sw lw .ema, xs =>
      (List.range xs.length).map
        (crossSigAt ((ewmMean sw xs).map some) ((ewmMean lw xs).map some))
  | .rsi p osold obought, xs =>
      (List.range xs.length).map (fun i => rsiSigAt (rsiCol p xs) osold obought i)

/-! ## Backtester (src/backtesting/backtester.py)

The trading loop is exact rational arithmetic.  The two places where
numpy/pandas special values can appear in the metrics are modeled
explicitly: `drawdown.min()` of an empty series is NaN, and the Sharpe
expression `np.sqrt(252) * excess_mean / std` is classified by
`SharpeVal` (the factor √252 and the square root inside the sample
standard deviation are irrational, so a finite nonzero Sharpe value is
kept symbolically as the pair of its excess mean and the sample
variance of the returns). -/

/-- One entry of the trade list; BUY trades carry no pnl key, so `pnl`
is optional and `t.get('pnl', 0)` is `(t.pnl).getD 0`. -/
structure Trade where
  ttype : String
  date : ℕ
  price : ℚ
  quantity : ℚ
  value : ℚ
  pnl : Option ℚ
deriving DecidableEq

/-- Value of `np.sqrt(252) * excess_returns.mean() / returns.std() if
len(returns) > 0 else 0`:
`intZero` is the Python int 0 of the else-branch; `nan` arises when the
sample standard deviation is itself NaN (a single return observation,
ddof = 1) or when a zero excess mean is divided by a zero standard
deviation; ±inf arise when a nonzero excess mean is divided by a zero
standard deviation; `fin m v` is the ordinary finite value
√252·m/√v for excess mean m and sample variance v > 0. -/
inductive SharpeVal where
  | intZero
  | nan
  | pinf
  | ninf
  | fin (excessMean sampleVariance : ℚ)
deriving DecidableEq

def listSum (xs : List ℚ) : ℚ := xs.sum

def listMean (xs : List ℚ) : ℚ := xs.sum / (xs.length : ℚ)

/-- Sample variance with ddof = 1 (the square of pandas
`Series.std()` when it is finite). -/
def sampleVar (xs : List ℚ) : ℚ :=
  ((xs.map (fun x => (x - listMean xs) ^ 2)).sum) / ((xs.length : ℚ) - 1)

/-- The list `series.pct_change().dropna()` (entry i is
p(i+1)/p(i) - 1; the leading NaN is dropped). -/
def pctChange (pvs : List ℚ) : List ℚ :=
  List.zipWith (fun cur prev => cur / prev - 1) pvs.tail pvs

/-- Classification of the Sharpe expression of Backtester.run. -/
def sharpeOf (pvs : List ℚ) : SharpeVal :=
  let rs := pctChange pvs
  if rs.length = 0 then .intZero
  else if rs.length = 1 then .nan
  else
    let m := listMean rs - 5 / 100 / 252
    let v := sampleVar rs
    if v = 0 then (if m = 0 then .nan else if 0 < m then .pinf else .ninf)
    else .fin m v

/-- Running maximum (`Series.cummax()`). -/
def cummaxList : List ℚ → List ℚ
  | [] => []
  | x :: rest => List.scanl (fun m y => max m y) x rest

/-- Minimum of a series (`Series.min()`), None on the empty series
(where pandas yields NaN). -/
def listMin : List ℚ → Option ℚ
  | [] => none
  | x :: rest => some (rest.foldl min x)

/-- The max-drawdown expression
`((pv - pv.cummax()) / pv.cummax()).min() * 100`: NaN on an empty
equity curve. -/
def maxDrawdownOf (pvs : List ℚ) : EF :=
  let dds := List.zipWith (fun p m => (p - m) / m) pvs (cummaxList pvs)
  match listMin dds with
  | none => EF.nan
  | some m => EF.val (m * 100)

/-- Mutable loop state of Backtester.run. -/
structure BTLoop where
  capital : ℚ
  position : ℚ
  positionValue : ℚ
  trades : List Trade
  pvs : List ℚ
deriving DecidableEq

/-- One iteration of the loop of Backtester.run at index i with close
price `price` and signal `signal`: append the current portfolio value,
then buy with 95% of cash on signal 1 when flat, or liquidate on
signal -1 when holding (commission proportional to notional in both
directions). -/
def btStep (commission : ℚ) (st : BTLoop) (ips : (ℕ × ℚ) × ℤ) : BTLoop :=
  let i := ips.1.1
  let price := ips.1.2
  let signal := ips.2
  let pv := st.capital + st.position * price
  let st := { st with pvs := st.pvs ++ [pv] }
  if signal = 1 ∧ st.position = 0 then
    let pos := (st.capital * (95/100)) / price
    let posVal := pos * price
    { st with
      capital := st.capital - posVal - posVal * commission
      position := pos
      positionValue := posVal
      trades := st.trades ++
        [{ ttype := "BUY", date := i, price := price, quantity := pos,
           value := posVal, pnl := none }] }
  else if signal = -1 ∧ 0 < st.position then
    let sellValue := st.position * price
    let pnl := sellValue - st.positionValue
    { st with
      capital := st.capital + sellValue - sellValue * commission
      position := 0
      positionValue := 0
      trades := st.trades ++
        [{ ttype := "SELL", date := i, price := price, quantity := st.position,
           value := sellValue, pnl := some pnl }] }
  else st

/-- The results dict of Backtester.run. -/
structure BTResult where
  initialCapital : ℚ
  finalCapital : ℚ
  totalReturn : ℚ
  totalTrades : ℕ
  winningTrades : ℕ
  losingTrades : ℕ
  winRate : ℚ
  avgWin : ℚ
  avgLoss : ℚ
  maxDrawdown : EF
  sharpe : SharpeVal
  trades : List Trade
  portfolioValues : List ℚ
deriving DecidableEq

/-- Backtester.run: compute the strategy's signal column, fold the
trading loop over the series, force-liquidate any open position at the
last close, then derive the metrics. -/
def btRun (signalsOf : List ℚ → List ℤ) (closes : List ℚ)
    (initialCapital commission : ℚ) : BTResult :=
  let signals := signalsOf closes
  let rows := closes.enum.zip signals
  let looped := rows.foldl (btStep commission) (BTLoop.mk initialCapital 0 0 [] [])
  let fin :=
    if 0 < looped.position then
      let lastPrice := (closes.getLast?).getD 0
      let finValue := looped.position * lastPrice
      { looped with
        capital := looped.capital + finValue - finValue * commission
        trades := looped.trades ++
          [{ ttype := "SELL", date := closes.length - 1, price := lastPrice,
             quantity := looped.position, value := finValue,
             pnl := some (finValue - looped.positionValue) }] }
    else looped
  let finalCapital := fin.capital
  let buyTrades := fin.trades.filter (fun t => t.ttype = "BUY")
  let sellTrades := fin.trades.filter (fun t => t.ttype = "SELL")
  let winning := sellTrades.filter (fun t => 0 < (t.pnl).getD 0)
  let losing := sellTrades.filter (fun t => (t.pnl).getD 0 < 0)
  { initialCapital := initialCapital
    finalCapital := finalCapital
    totalReturn := (finalCapital - initialCapital) / initialCapital * 100
    totalTrades := buyTrades.length
    winningTrades := winning.length
    losingTrades := losing.length
    winRate := if sellTrades.length ≠ 0
      then ((winning.length : ℚ) / (sellTrades.length : ℚ)) * 100 else 0
    avgWin := if winning.length ≠ 0
      then listMean (winning.map (fun t => (t.pnl).getD 0)) else 0
    avgLoss := if losing.length ≠ 0
      then listMean (losing.map (fun t => (t.pnl).getD 0)) else 0
    maxDrawdown := maxDrawdownOf fin.pvs
    sharpe := sharpeOf fin.pvs
    trades := fin.trades
    portfolioValues := fin.pvs }

/-! ## Helper lemmas -/

theorem getElem?_eq_of_take_eq {α : Type} {xs ys : List α} {k j : ℕ}
    (hj : j < k) (h : xs.take k = ys.take k) : xs[j]? = ys[j]? := by
  have hx := List.getElem?_take (l := xs) (n := k) (m := j)
  have hy := List.getElem?_take (l := ys) (n := k) (m := j)
  rw [if_pos hj] at hx hy
  rw [← hx, ← hy, h]

theorem getD_eq_of_take_eq {α : Type} (d : α) {xs ys : List α} {k j : ℕ}
    (hj : j < k) (h : xs.take k = ys.take k) : xs.getD j d = ys.getD j d := by
  rw [List.getD_eq_getElem?_getD, List.getD_eq_getElem?_getD,
    getElem?_eq_of_take_eq hj h]

theorem window_eq_of_take_eq {α : Type} {xs ys : List α} {k a w : ℕ}
    (hk : a + w ≤ k) (h : xs.take k = ys.take k) :
    (xs.drop a).take w = (ys.drop a).take w := by
  have hx : (xs.take (a + w)).drop a = (xs.drop a).take w := by
    rw [List.drop_take]
    congr 1
    omega
  have hy : (ys.take (a + w)).drop a = (ys.drop a).take w := by
    rw [List.drop_take]
    congr 1
    omega
  have hx2 : xs.take (a + w) = (xs.take k).take (a + w) := by
    rw [List.take_take]
    congr 1
    omega
  have hy2 : ys.take (a + w) = (ys.take k).take (a + w) := by
    rw [List.take_take]
    congr 1
    omega
  rw [← hx, ← hy, hx2, hy2, h]

theorem rmAt_eq_of_take_eq {xs ys : List ℚ} {w i j : ℕ} (hj : j ≤ i)
    (h : xs.take (i + 1) = ys.take (i + 1)) : rmAt w xs j = rmAt w ys j := by
  unfold rmAt
  by_cases hw : j + 1 < w
  · rw [if_pos hw, if_pos hw]
  · rw [if_neg hw, if_neg hw]
    have hwin : (xs.drop (j + 1 - w)).take w = (ys.drop (j + 1 - w)).take w :=
      window_eq_of_take_eq (k := i + 1) (by omega) h
    rw [hwin]

theorem gainAt_eq_of_take_eq {xs ys : List ℚ} {i j : ℕ} (hj : j ≤ i)
    (h : xs.take (i + 1) = ys.take (i + 1)) : gainAt xs j = gainAt ys j := by
  unfold gainAt
  rw [getD_eq_of_take_eq 0 (k := i + 1) (by omega) h,
    getD_eq_of_take_eq 0 (k := i + 1) (j := j - 1) (by omega) h]

theorem lossAt_eq_of_take_eq {xs ys : List ℚ} {i j : ℕ} (hj : j ≤ i)
    (h : xs.take (i + 1) = ys.take (i + 1)) : lossAt xs j = lossAt ys j := by
  unfold lossAt
  rw [getD_eq_of_take_eq 0 (k := i + 1) (by omega) h,
    getD_eq_of_take_eq 0 (k := i + 1) (j := j - 1) (by omega) h]

theorem length_gains (xs : List ℚ) : (gains xs).length = xs.length := by
  simp [gains]

theorem length_losses (xs : List ℚ) : (losses xs).length = xs.length := by
  simp [losses]

theorem rangeMap_take_eq_of_agree {α : Type} {f g : ℕ → α} {n₁ n₂ k : ℕ}
    (hn₁ : k ≤ n₁) (hn₂ : k ≤ n₂) (h : ∀ j < k, f j = g j) :
    ((List.range n₁).map f).take k = ((List.range n₂).map g).take k := by
  rw [← List.map_take, ← List.map_take, List.take_range, List.take_range]
  have hmin₁ : k ⊓ n₁ = k := by omega
  have hmin₂ : k ⊓ n₂ = k := by omega
  rw [hmin₁, hmin₂]
  exact List.map_congr_left (fun a ha => h a (List.mem_range.mp ha))

theorem gains_take_eq_of_take_eq {xs ys : List ℚ} {i : ℕ}
    (hx : i < xs.length) (hy : i < ys.length)
    (h : xs.take (i + 1) = ys.take (i + 1)) :
    (gains xs).take (i + 1) = (gains ys).take (i + 1) := by
  unfold gains
  exact rangeMap_take_eq_of_agree (by omega) (by omega)
    (fun j hj => gainAt_eq_of_take_eq (by omega) h)

theorem losses_take_eq_of_take_eq {xs ys : List ℚ} {i : ℕ}
    (hx : i < xs.length) (hy : i < ys.length)
    (h : xs.take (i + 1) = ys.take (i + 1)) :
    (losses xs).take (i + 1) = (losses ys).take (i + 1) := by
  unfold losses
  exact rangeMap_take_eq_of_agree (by omega) (by omega)
    (fun j hj => lossAt_eq_of_take_eq (by omega) h)

theorem rsiAt_eq_of_take_eq {xs ys : List ℚ} {p i j : ℕ} (hj : j ≤ i)
    (hx : i < xs.length) (hy : i < ys.length)
    (h : xs.take (i + 1) = ys.take (i + 1)) :
    rsiAt p xs j = rsiAt p ys j := by
  unfold rsiAt
  rw [rmAt_eq_of_take_eq hj (gains_take_eq_of_take_eq hx hy h),
    rmAt_eq_of_take_eq hj (losses_take_eq_of_take_eq hx hy h)]

theorem scanl_getElem? {α : Type} (f : α → α → α) (b : α) (l : List α) (i : ℕ) :
    (List.scanl f b l)[i]? =
      if i ≤ l.length then some ((l.take i).foldl f b) else none := by
  induction l generalizing b i with
  | nil =>
    cases i with
    | zero => simp [List.scanl_nil]
    | succ m => simp [List.scanl_nil]
  | cons x xs ih =>
    cases i with
    | zero => simp [List.scanl_cons]
    | succ m =>
      rw [List.scanl_cons]
      have h1 : ([b] ++ List.scanl f (f b x) xs)[m + 1]? =
          (List.scanl f (f b x) xs)[m]? := by simp
      rw [h1, ih (f b x) m]
      by_cases hm : m ≤ xs.length
      · rw [if_pos hm, if_pos (by simp [List.length_cons]; omega)]
        rw [List.take_succ_cons, List.foldl_cons]
      · rw [if_neg hm, if_neg (by simp [List.length_cons]; omega)]

theorem rangeMap_getD {α : Type} (f : ℕ → α) (d : α) {n j : ℕ} (hj : j < n) :
    ((List.range n).map f).getD j d = f j := by
  rw [List.getD_eq_getElem?_getD, List.getElem?_map, List.getElem?_range hj]
  rfl

theorem mapSome_getD {α : Type} (l : List α) (j : ℕ) :
    (l.map some).getD j none = l[j]? := by
  rw [List.getD_eq_getElem?_getD, List.getElem?_map]
  cases l[j]? <;> rfl

theorem ewmMean_getElem?_eq_of_take_eq {span : ℕ} {xs ys : List ℚ} {i j : ℕ}
    (hj : j ≤ i) (hx : i < xs.length) (hy : i < ys.length)
    (h : xs.take (i + 1) = ys.take (i + 1)) :
    (ewmMean span xs)[j]? = (ewmMean span ys)[j]? := by
  cases xs with
  | nil => simp at hx
  | cons x xr =>
    cases ys with
    | nil => simp at hy
    | cons y yr =>
      rw [List.take_succ_cons, List.take_succ_cons] at h
      have hhead : x = y := by injection h
      have htail : xr.take i = yr.take i := by injection h
      unfold ewmMean
      rw [scanl_getElem?, scanl_getElem?]
      have hlx : j ≤ xr.length := by
        simp only [List.length_cons] at hx
        omega
      have hly : j ≤ yr.length := by
        simp only [List.length_cons] at hy
        omega
      rw [if_pos hlx, if_pos hly, hhead]
      have htk : xr.take j = yr.take j := by
        have h1 : xr.take j = (xr.take i).take j := by
          rw [List.take_take]
          congr 1
          omega
        have h2 : yr.take j = (yr.take i).take j := by
          rw [List.take_take]
          congr 1
          omega
        rw [h1, h2, htail]
      rw [htk]

theorem smaSig_eq_of_take_eq {sw lw : ℕ} {xs ys : List ℚ} {i : ℕ}
    (hx : i < xs.length) (hy : i < ys.length)
    (h : xs.take (i + 1) = ys.take (i + 1)) :
    crossSigAt (rollingMean sw xs) (rollingMean lw xs) i
      = crossSigAt (rollingMean sw ys) (rollingMean lw ys) i := by
  have hcur : ∀ w : ℕ, (rollingMean w xs).getD i none = (rollingMean w ys).getD i none := by
    intro w
    unfold rollingMean
    rw [rangeMap_getD _ _ hx, rangeMap_getD _ _ hy]
    exact rmAt_eq_of_take_eq (le_refl i) h
  have hprev : ∀ w : ℕ,
      (if i = 0 then none else (rollingMean w xs).getD (i - 1) none)
        = (if i = 0 then none else (rollingMean w ys).getD (i - 1) none) := by
    intro w
    by_cases h0 : i = 0
    · rw [if_pos h0, if_pos h0]
    · rw [if_neg h0, if_neg h0]
      unfold rollingMean
      rw [rangeMap_getD _ _ (by omega), rangeMap_getD _ _ (by omega)]
      exact rmAt_eq_of_take_eq (by omega) h
  unfold crossSigAt
  rw [hcur sw, hcur lw, hprev sw, hprev lw]

theorem emaSig_eq_of_take_eq {sw lw : ℕ} {xs ys : List ℚ} {i : ℕ}
    (hx : i < xs.length) (hy : i < ys.length)
    (h : xs.take (i + 1) = ys.take (i + 1)) :
    crossSigAt ((ewmMean sw xs).map some) ((ewmMean lw xs).map some) i
      = crossSigAt ((ewmMean sw ys).map some) ((ewmMean lw ys).map some) i := by
  have hcur : ∀ w : ℕ,
      ((ewmMean w xs).map some).getD i none = ((ewmMean w ys).map some).getD i none := by
    intro w
    rw [mapSome_getD, mapSome_getD]
    exact ewmMean_getElem?_eq_of_take_eq (le_refl i) hx hy h
  have hprev : ∀ w : ℕ,
      (if i = 0 then none else ((ewmMean w xs).map some).getD (i - 1) none)
        = (if i = 0 then none else ((ewmMean w ys).map some).getD (i - 1) none) := by
    intro w
    by_cases h0 : i = 0
    · rw [if_pos h0, if_pos h0]
    · rw [if_neg h0, if_neg h0]
      rw [mapSome_getD, mapSome_getD]
      exact ewmMean_getElem?_eq_of_take_eq (by omega) hx hy h
  unfold crossSigAt
  rw [hcur sw, hcur lw, hprev sw, hprev lw]

theorem rsiSig_eq_of_take_eq {p : ℕ} {osold obought : ℚ} {xs ys : List ℚ} {i : ℕ}
    (hx : i < xs.length) (hy : i < ys.length)
    (h : xs.take (i + 1) = ys.take (i + 1)) :
    rsiSigAt (rsiCol p xs) osold obought i = rsiSigAt (rsiCol p ys) osold obought i := by
  have hcur : (rsiCol p xs).getD i EF.nan = (rsiCol p ys).getD i EF.nan := by
    unfold rsiCol
    rw [rangeMap_getD _ _ hx, rangeMap_getD _ _ hy]
    exact rsiAt_eq_of_take_eq (le_refl i) hx hy h
  have hprev : (if i = 0 then EF.nan else (rsiCol p xs).getD (i - 1) EF.nan)
      = (if i = 0 then EF.nan else (rsiCol p ys).getD (i - 1) EF.nan) := by
    by_cases h0 : i = 0
    · rw [if_pos h0, if_pos h0]
    · rw [if_neg h0, if_neg h0]
      unfold rsiCol
      rw [rangeMap_getD _ _ (by omega), rangeMap_getD _ _ (by omega)]
      exact rsiAt_eq_of_take_eq (by omega) hx hy h
  unfold rsiSigAt
  rw [hcur, hprev]

/-! ## Claim theorems -/

/-- C6: for every strategy variant (moving-average crossover with SMA or
EMA, and the RSI threshold strategy) and every index i, the signal
generated at index i depends only on bars at indices at most i: two
close-price series that agree on all entries up to and including index
i produce the same signal at index i after calculate_indicators
followed by generate_signals. -/
theorem c6_signals_no_lookahead (s : StratSpec) (xs ys : List ℚ) (i : ℕ)
    (hx : i < xs.length) (hy : i < ys.length)
    (h : xs.take (i + 1) = ys.take (i + 1)) :
    (stratSignals s xs)[i]? = (stratSignals s ys)[i]? := by
  cases s with
  | maCross sw lw mt =>
    cases mt with
    | sma =>
      unfold stratSignals
      rw [List.getElem?_map, List.getElem?_map,
        List.getElem?_range hx, List.getElem?_range hy]
      simp only [Option.map_some']
      rw [smaSig_eq_of_take_eq hx hy h]
    | ema =>
      unfold stratSignals
      rw [List.getElem?_map, List.getElem?_map,
        List.getElem?_range hx, List.getElem?_range hy]
      simp only [Option.map_some']
      rw [emaSig_eq_of_take_eq hx hy h]
  | rsi p osold obought =>
    unfold stratSignals
    rw [List.getElem?_map, List.getElem?_map,
      List.getElem?_range hx, List.getElem?_range hy]
    simp only [Option.map_some']
    rw [rsiSig_eq_of_take_eq hx hy h]

/-- Witness for C6 at a concrete strategy, index and pair of series that
differ strictly after the index. -/
theorem c6_signals_no_lookahead_witness :
    (stratSignals (.rsi 2 30 70) [10, 1, 2, 3, 4])[3]?
      = (stratSignals (.rsi 2 30 70) [10, 1, 2, 3, 999])[3]? :=
  c6_signals_no_lookahead (.rsi 2 30 70) [10, 1, 2, 3, 4] [10, 1, 2, 3, 999] 3
    (by decide) (by decide) (by decide)

/-- C5: calculate_position_size returns
floor(capital × risk_pct/100 / |entry − stop|) whole units for every
nonnegative capital and risk percentage, returns 0 when the entry price
equals the stop price (without raising; the warning is only logged),
and in particular returns 40 for capital 100000, entry 2500, stop 2450,
risk 2%. -/
theorem positionSize_floor (r : RiskState) (e s rp : ℚ)
    (hcap : 0 ≤ r.capital) (hrp : 0 ≤ rp) :
    (e = s → calculatePositionSize r e s rp = 0) ∧
    (e ≠ s → calculatePositionSize r e s rp = ⌊r.capital * (rp / 100) / |e - s|⌋) := by
  constructor
  · intro he
    unfold calculatePositionSize
    rw [if_pos (by rw [he]; simp)]
  · intro he
    have habs : ¬ |e - s| = 0 := by
      simp only [abs_eq_zero, sub_eq_zero]
      exact he
    unfold calculatePositionSize pyInt
    rw [if_neg habs]
    have hq : 0 ≤ r.capital * (rp / 100) / |e - s| :=
      div_nonneg (mul_nonneg hcap (by positivity)) (abs_nonneg _)
    rw [if_neg (by exact not_lt.mpr hq)]

theorem c5_position_size :
    (∀ (r : RiskState) (e s rp : ℚ), 0 ≤ r.capital → 0 ≤ rp →
      ((e = s → calculatePositionSize r e s rp = 0) ∧
       (e ≠ s → calculatePositionSize r e s rp = ⌊r.capital * (rp / 100) / |e - s|⌋))) ∧
    calculatePositionSize (RiskState.init 100000) 2500 2450 2 = 40 := by
  refine ⟨fun r e s rp hcap hrp => positionSize_floor r e s rp hcap hrp, ?_⟩
  rw [(positionSize_floor (RiskState.init 100000) 2500 2450 2
    (by norm_num [RiskState.init]) (by norm_num)).2 (by norm_num)]
  norm_num [RiskState.init]

/-- Witness for C5's general clause at a concrete non-degenerate input. -/
theorem c5_position_size_witness :
    calculatePositionSize (RiskState.init 100000) 3000 2900 1 =
      ⌊(RiskState.init 100000).capital * ((1:ℚ) / 100) / |(3000:ℚ) - 2900|⌋ :=
  (c5_position_size.1 (RiskState.init 100000) 3000 2900 1
    (by norm_num [RiskState.init]) (by norm_num)).2 (by norm_num)

theorem applyRMOp_open_nonneg (r : RiskState) (op : RMOp)
    (h : 0 ≤ r.openPositions) : 0 ≤ (applyRMOp r op).openPositions := by
  cases op with
  | updPnl p => exact h
  | updCapital c => exact h
  | addPos =>
    simp only [applyRMOp, addPosition]
    omega
  | closePos =>
    simp only [applyRMOp, closePositionRM]
    by_cases hpos : 0 < r.openPositions
    · rw [if_pos hpos]
      simp only []
      omega
    · rw [if_neg hpos]
      exact h
  | resetPnl => exact h

theorem applyRMOps_open_nonneg (ops : List RMOp) (r : RiskState)
    (h : 0 ≤ r.openPositions) : 0 ≤ (applyRMOps r ops).openPositions := by
  induction ops generalizing r with
  | nil => exact h
  | cons op rest ih =>
    have hstep : applyRMOps r (op :: rest) = applyRMOps (applyRMOp r op) rest := by
      simp [applyRMOps]
    rw [hstep]
    exact ih _ (applyRMOp_open_nonneg r op h)

/-- C10: the open-position count is always nonnegative: add_position
increments it by one, close_position decrements it only when it is
strictly positive and is a no-op at zero, and every sequence of
state-mutating RiskManager operations applied to a freshly initialized
state keeps the count at least 0. -/
theorem c10_open_positions_nonneg :
    (∀ r : RiskState, (addPosition r).openPositions = r.openPositions + 1) ∧
    (∀ r : RiskState, 0 < r.openPositions →
      (closePositionRM r).openPositions = r.openPositions - 1) ∧
    (∀ r : RiskState, r.openPositions = 0 → closePositionRM r = r) ∧
    (∀ (c : ℚ) (ops : List RMOp),
      0 ≤ (applyRMOps (RiskState.init c) ops).openPositions) := by
  refine ⟨fun r => rfl, fun r h => ?_, fun r h => ?_, fun c ops => ?_⟩
  · simp only [closePositionRM]
    rw [if_pos h]
  · simp only [closePositionRM]
    rw [if_neg (by omega)]
  · exact applyRMOps_open_nonneg ops (RiskState.init c) (by norm_num [RiskState.init])

/-- Witness for C10's hypothesis-guarded clauses at concrete states. -/
theorem c10_open_positions_nonneg_witness :
    (closePositionRM { RiskState.init 0 with openPositions := 2 }).openPositions = 1 ∧
    0 ≤ (applyRMOps (RiskState.init 100000)
          [RMOp.addPos, RMOp.closePos, RMOp.closePos]).openPositions := by
  constructor
  · rw [c10_open_positions_nonneg.2.1 _ (by decide)]
    decide
  · exact c10_open_positions_nonneg.2.2.2 100000 [RMOp.addPos, RMOp.closePos, RMOp.closePos]

theorem gains_replicate (n : ℕ) (c : ℚ) :
    gains (List.replicate n c) = List.replicate n 0 := by
  unfold gains
  rw [List.length_replicate]
  refine List.eq_replicate_iff.mpr ⟨by simp, ?_⟩
  intro b hb
  rw [List.mem_map] at hb
  obtain ⟨j, hj, hb⟩ := hb
  rw [List.mem_range] at hj
  subst hb
  unfold gainAt
  by_cases h0 : j = 0
  · rw [if_pos h0]
  · rw [if_neg h0]
    have h1 : (List.replicate n c).getD j 0 = c := by
      rw [List.getD_eq_getElem?_getD, List.getElem?_replicate, if_pos hj]
      rfl
    have h2 : (List.replicate n c).getD (j - 1) 0 = c := by
      rw [List.getD_eq_getElem?_getD, List.getElem?_replicate, if_pos (by omega)]
      rfl
    rw [h1, h2]
    simp

theorem losses_replicate (n : ℕ) (c : ℚ) :
    losses (List.replicate n c) = List.replicate n 0 := by
  unfold losses
  rw [List.length_replicate]
  refine List.eq_replicate_iff.mpr ⟨by simp, ?_⟩
  intro b hb
  rw [List.mem_map] at hb
  obtain ⟨j, hj, hb⟩ := hb
  rw [List.mem_range] at hj
  subst hb
  unfold lossAt
  by_cases h0 : j = 0
  · rw [if_pos h0]
  · rw [if_neg h0]
    have h1 : (List.replicate n c).getD j 0 = c := by
      rw [List.getD_eq_getElem?_getD, List.getElem?_replicate, if_pos hj]
      rfl
    have h2 : (List.replicate n c).getD (j - 1) 0 = c := by
      rw [List.getD_eq_getElem?_getD, List.getElem?_replicate, if_pos (by omega)]
      rfl
    rw [h1, h2]
    simp

theorem rmAt_replicate_zero (p n j : ℕ) :
    rmAt p (List.replicate n (0 : ℚ)) j = if j + 1 < p then none else some 0 := by
  unfold rmAt
  by_cases hp : j + 1 < p
  · rw [if_pos hp, if_pos hp]
  · rw [if_neg hp, if_neg hp]
    rw [List.drop_replicate, List.take_replicate]
    simp

/-- C7: the RSI computation is total (no exception) when the average
loss over the window is zero: when the average gain is positive the
RSI value is exactly 100 (the IEEE evaluation of
100 - 100/(1 + gain/0)), and on a perfectly flat price series every
RSI entry is NaN (the IEEE evaluation of the same formula on 0/0),
uniformly at every index, again without raising. -/
theorem c7_rsi_zero_loss_total :
    (∀ (p : ℕ) (xs : List ℚ) (i : ℕ) (g : ℚ), i < xs.length →
      rmAt p (gains xs) i = some g → 0 < g → rmAt p (losses xs) i = some 0 →
      (rsiCol p xs)[i]? = some (EF.val 100)) ∧
    (∀ (p n : ℕ) (c : ℚ) (j : ℕ), j < n →
      (rsiCol p (List.replicate n c))[j]? = some EF.nan) := by
  constructor
  · intro p xs i g hi hg hgpos hl
    unfold rsiCol
    rw [List.getElem?_map, List.getElem?_range hi]
    simp only [Option.map_some']
    congr 1
    unfold rsiAt
    rw [hg, hl]
    have e1 : EF.div (EF.val g) (EF.val 0) = EF.pinf := by
      show (if (0 : ℚ) = 0 then if g = 0 then EF.nan else if 0 < g then EF.pinf else EF.ninf
            else EF.val (g / 0)) = EF.pinf
      rw [if_pos rfl, if_neg (ne_of_gt hgpos), if_pos hgpos]
    have e4 : EF.sub (EF.val 100) (EF.val 0) = EF.val 100 := by
      simp only [EF.sub, EF.neg, EF.add]
      norm_num
    show EF.sub (EF.val 100)
      (EF.div (EF.val 100) (EF.add (EF.val 1) (EF.div (EF.val g) (EF.val 0)))) = EF.val 100
    rw [e1]
    show EF.sub (EF.val 100) (EF.div (EF.val 100) EF.pinf) = EF.val 100
    show EF.sub (EF.val 100) (EF.val 0) = EF.val 100
    exact e4
  · intro p n c j hj
    unfold rsiCol
    rw [List.getElem?_map]
    rw [List.getElem?_range (by rw [List.length_replicate]; exact hj)]
    simp only [Option.map_some']
    congr 1
    unfold rsiAt
    rw [gains_replicate, losses_replicate, rmAt_replicate_zero]
    by_cases hp : j + 1 < p
    · rw [if_pos hp]
    · rw [if_neg hp]
      simp [EF.div, EF.add, EF.sub, EF.neg]

/-- Witness for C7 at a strictly rising series (zero average loss,
positive average gain) and at a flat series. -/
theorem c7_rsi_zero_loss_total_witness :
    (rsiCol 2 [1, 2, 3, 4])[3]? = some (EF.val 100) ∧
    (rsiCol 2 (List.replicate 4 (5 : ℚ)))[2]? = some EF.nan := by
  constructor
  · apply c7_rsi_zero_loss_total.1 2 [1, 2, 3, 4] 3 1 (by norm_num)
    · show rmAt 2 (gains [1, 2, 3, 4]) 3 = some 1
      norm_num [rmAt, gains, gainAt, List.range_succ]
    · norm_num
    · show rmAt 2 (losses [1, 2, 3, 4]) 3 = some 0
      norm_num [rmAt, losses, lossAt, List.range_succ]
  · exact c7_rsi_zero_loss_total.2 2 4 5 2 (by norm_num)

theorem dictLookup_dictInsert {α : Type} (d : List (String × α)) (k : String) (v : α) :
    dictLookup (dictInsert d k v) k = some v := by
  induction d with
  | nil => simp [dictInsert, dictLookup]
  | cons kv rest ih =>
    by_cases hk : kv.1 = k
    · simp [dictInsert, dictLookup, hk]
    · simp only [dictInsert, dictLookup, if_neg hk]
      exact ih

/-- C2: for every ledger state with no open position recorded under the
symbol, place_order with SELL mutates nothing in the ledger: the
position map, the closed-position log and the risk manager state are
all unchanged, and the only effect is one order record with status
PLACED (never FILLED) appended to the order log; the id returned is the
id of that unfilled record, not of any fill. -/
theorem c2_sell_without_position (st : OMState) (symbol : String)
    (quantity price : ℚ) (stopLoss takeProfit : Option ℚ)
    (orderType : String) (now : ℕ)
    (h : dictLookup st.positions symbol = none) :
    placeOrder st symbol "SELL" quantity price stopLoss takeProfit orderType now =
      (some (paperOrderId now),
       { st with orders := st.orders ++
          [{ orderId := some (paperOrderId now), symbol := symbol,
             transactionType := "SELL", quantity := quantity, price := price,
             orderType := orderType, time := now, status := "PLACED" }] }) := by
  obtain ⟨rm, pos, cl, ords⟩ := st
  unfold placeOrder placePaperOrder
  cases rm with
  | none => simp [h]
  | some r => simp [h]

/-- Witness for C2 on a ledger holding an open position for a different
symbol. -/
theorem c2_sell_without_position_witness :
    placeOrder
      { riskManager := some (RiskState.init 100000),
        positions := [("Y", Position.initP "Y" 1 10 0 none none "PAPER_0")],
        closedPositions := [], orders := [] }
      "X" "SELL" 2 1000 none none "MARKET" 7 =
      (some (paperOrderId 7),
       { riskManager := some (RiskState.init 100000),
         positions := [("Y", Position.initP "Y" 1 10 0 none none "PAPER_0")],
         closedPositions := [],
         orders := [{ orderId := some (paperOrderId 7), symbol := "X",
                      transactionType := "SELL", quantity := 2, price := 1000,
                      orderType := "MARKET", time := 7, status := "PLACED" }] }) :=
  c2_sell_without_position _ "X" 2 1000 none none "MARKET" 7 (by simp [dictLookup])

/-- The concrete ledger state of the C1 counterexample: an Open
Position for symbol X is on the books, the risk manager counts one
open position, and a further buy passes every risk check. -/
def c1State : OMState :=
  { riskManager := some { RiskState.init 100000 with openPositions := 1 },
    positions := [("X", Position.initP "X" 3 900 0 none none "PAPER_0")],
    closedPositions := [], orders := [] }

/-- Counterexample to C1: with an Open Position for X on the books, a
validated Buy for X is NOT a no-op returning null — it returns an
order id, replaces the stored position (the recorded entry price
changes from 900 to 1000), increments the risk gate's counter to 2,
and appends an order record. -/
theorem c1_cex :
    (placeOrder c1State "X" "BUY" 2 1000 none none "MARKET" 5).1 ≠ none ∧
    dictLookup (placeOrder c1State "X" "BUY" 2 1000 none none "MARKET" 5).2.positions "X"
      = some (Position.initP "X" 2 1000 5 none none (paperOrderId 5)) ∧
    ((placeOrder c1State "X" "BUY" 2 1000 none none "MARKET" 5).2.riskManager.map
      RiskState.openPositions) = some 2 ∧
    (placeOrder c1State "X" "BUY" 2 1000 none none "MARKET" 5).2.orders.length = 1 := by
  refine ⟨?_, ?_, ?_, ?_⟩ <;>
    norm_num [c1State, placeOrder, placePaperOrder, validateOrder, canOpenPosition,
      dictInsert, dictLookup, addPosition, RiskState.init]
  exact Option.some_ne_none _

/-- C1 as the code actually behaves: a Buy that passes risk validation
always returns the fresh paper order id, stores a brand-new Open
Position under the symbol — overwriting the one already there —
increments the risk gate's open-position counter, and appends one
PLACED order record; the presence of an existing Open Position for the
symbol is never consulted. -/
theorem c1_buy_overwrites (st : OMState) (rm : RiskState) (symbol : String)
    (oldPos : Position) (quantity price : ℚ) (stopLoss takeProfit : Option ℚ)
    (orderType : String) (now : ℕ)
    (hrm : st.riskManager = some rm)
    (hopen : dictLookup st.positions symbol = some oldPos)
    (hval : (validateOrder rm symbol quantity price).1 = true) :
    placeOrder st symbol "BUY" quantity price stopLoss takeProfit orderType now =
      (some (paperOrderId now),
       { st with
         riskManager := some (addPosition rm)
         positions := dictInsert st.positions symbol
           (Position.initP symbol quantity price now stopLoss takeProfit (paperOrderId now))
         orders := st.orders ++
          [{ orderId := some (paperOrderId now), symbol := symbol,
             transactionType := "BUY", quantity := quantity, price := price,
             orderType := orderType, time := now, status := "PLACED" }] }) ∧
    dictLookup (placeOrder st symbol "BUY" quantity price stopLoss takeProfit orderType now).2.positions
        symbol
      = some (Position.initP symbol quantity price now stopLoss takeProfit (paperOrderId now)) := by
  obtain ⟨rmf, pos, cl, ords⟩ := st
  simp only [] at hrm hopen
  subst hrm
  constructor
  · unfold placeOrder placePaperOrder
    simp [hval]
  · unfold placeOrder placePaperOrder
    simp [hval, dictLookup_dictInsert]

/-- Witness for C1's amended behavior at the counterexample state. -/
theorem c1_buy_overwrites_witness :
    (placeOrder c1State "X" "BUY" 2 1000 none none "MARKET" 5).1 = some (paperOrderId 5) := by
  have h := c1_buy_overwrites c1State { RiskState.init 100000 with openPositions := 1 } "X"
    (Position.initP "X" 3 900 0 none none "PAPER_0") 2 1000 none none "MARKET" 5
    (by simp [c1State]) (by simp [c1State, dictLookup])
    (by norm_num [validateOrder, canOpenPosition, RiskState.init])
  rw [h.1]

/-- C8: starting from a ledger with no open positions, a validated Buy
followed by a Sell for the same symbol leaves the open-position map
empty and the closed-position log holding exactly one entry whose
realized P&L is quantity × (exit price − entry price). -/
theorem c8_round_trip (rm : RiskState) (symbol : String) (quantity p1 p2 : ℚ)
    (stopLoss takeProfit : Option ℚ) (ot1 ot2 : String) (t1 t2 : ℕ)
    (hval : (validateOrder rm symbol quantity p1).1 = true) :
    ((placeOrder (placeOrder (OMState.init (some rm)) symbol "BUY" quantity p1
        stopLoss takeProfit ot1 t1).2 symbol "SELL" quantity p2 none none ot2 t2).2.positions
      = []) ∧
    (∃ c : Position,
      (placeOrder (placeOrder (OMState.init (some rm)) symbol "BUY" quantity p1
          stopLoss takeProfit ot1 t1).2 symbol "SELL" quantity p2 none none ot2 t2).2.closedPositions
        = [c] ∧ c.pnl = quantity * (p2 - p1)) := by
  have hbuy : (placeOrder (OMState.init (some rm)) symbol "BUY" quantity p1
      stopLoss takeProfit ot1 t1).2 =
      { riskManager := some (addPosition rm)
        positions := [(symbol, Position.initP symbol quantity p1 t1 stopLoss takeProfit (paperOrderId t1))]
        closedPositions := []
        orders := [{ orderId := some (paperOrderId t1), symbol := symbol,
                     transactionType := "BUY", quantity := quantity, price := p1,
                     orderType := ot1, time := t1, status := "PLACED" }] } := by
    unfold placeOrder placePaperOrder OMState.init
    simp [hval, dictInsert]
  rw [hbuy]
  unfold placeOrder placePaperOrder
  refine ⟨by simp [dictLookup, dictErase], ?_⟩
  refine ⟨Position.close (Position.initP symbol quantity p1 t1 stopLoss takeProfit (paperOrderId t1)) p2 t2, ?_, ?_⟩
  · simp [dictLookup]
  · simp [Position.close, Position.initP]
    ring

/-- Witness for C8 at concrete prices and quantity. -/
theorem c8_round_trip_witness :
    ((placeOrder (placeOrder (OMState.init (some (RiskState.init 100000))) "X" "BUY" 2 1000
        none none "MARKET" 1).2 "X" "SELL" 2 1100 none none "MARKET" 2).2.positions = []) ∧
    (∃ c : Position,
      (placeOrder (placeOrder (OMState.init (some (RiskState.init 100000))) "X" "BUY" 2 1000
          none none "MARKET" 1).2 "X" "SELL" 2 1100 none none "MARKET" 2).2.closedPositions
        = [c] ∧ c.pnl = 2 * ((1100 : ℚ) - 1000)) :=
  c8_round_trip (RiskState.init 100000) "X" 2 1000 1100 none none "MARKET" "MARKET" 1 2
    (by norm_num [validateOrder, canOpenPosition, RiskState.init])

/-- The state of the C3 counterexample failing only the open-position
limit (daily P&L is zero). -/
def c3StateA : RiskState :=
  { capital := 100000, maxRiskPerTrade := 2, maxDailyLoss := 5,
    maxOpenPositions := 5, dailyPnl := 0, openPositions := 5 }

/-- The state of the C3 counterexample failing only the daily-loss
limit (no open positions, 5% of capital already lost today). -/
def c3StateB : RiskState :=
  { capital := 100000, maxRiskPerTrade := 2, maxDailyLoss := 5,
    maxOpenPositions := 5, dailyPnl := -5000, openPositions := 0 }

/-- Counterexample to C3's "specific reason string for each distinct
failing check": a state failing only the open-position-limit check and
a state failing only the daily-loss check are rejected with the
identical reason string. -/
theorem c3_cex :
    validateOrder c3StateA "X" 1 1000 = (false, riskLimitMsg) ∧
    validateOrder c3StateB "X" 1 1000 = (false, riskLimitMsg) ∧
    (c3StateA.openPositions ≥ c3StateA.maxOpenPositions ∧
      ¬ ((c3StateA.dailyPnl / c3StateA.capital) * 100 ≤ -c3StateA.maxDailyLoss)) ∧
    (c3StateB.openPositions < c3StateB.maxOpenPositions ∧
      (c3StateB.dailyPnl / c3StateB.capital) * 100 ≤ -c3StateB.maxDailyLoss) := by
  refine ⟨?_, ?_, ?_, ?_⟩ <;>
    norm_num [c3StateA, c3StateB, validateOrder, canOpenPosition]

/-- C3 as the code actually behaves: the checks run in the fixed order
open-position limit, daily-loss limit, max-order-value, min-order-value;
the first two share the single reason string riskLimitMsg while the
order-value checks have their own distinct reasons; in particular an
order breaching both the open-position limit and the max-order-value
bound is rejected with the shared risk-limit reason. -/
theorem c3_validate_order_fixed_sequence (r : RiskState) (symbol : String) (q p : ℚ) :
    (r.openPositions ≥ r.maxOpenPositions →
       validateOrder r symbol q p = (false, riskLimitMsg)) ∧
    ((r.dailyPnl / r.capital) * 100 ≤ -r.maxDailyLoss →
       validateOrder r symbol q p = (false, riskLimitMsg)) ∧
    (canOpenPosition r = true → q * p > r.capital * (3/10) →
       validateOrder r symbol q p = (false, exceedsMsg (q * p) (r.capital * (3/10)))) ∧
    (canOpenPosition r = true → ¬ (q * p > r.capital * (3/10)) → q * p < 500 →
       validateOrder r symbol q p = (false, tooSmallMsg)) ∧
    (canOpenPosition r = true → ¬ (q * p > r.capital * (3/10)) → ¬ (q * p < 500) →
       validateOrder r symbol q p = (true, validatedMsg)) ∧
    (r.openPositions ≥ r.maxOpenPositions → q * p > r.capital * (3/10) →
       validateOrder r symbol q p = (false, riskLimitMsg)) := by
  have hfail1 : r.openPositions ≥ r.maxOpenPositions → canOpenPosition r = false := by
    intro h
    unfold canOpenPosition
    rw [if_pos h]
  have hfail2 : (r.dailyPnl / r.capital) * 100 ≤ -r.maxDailyLoss →
      canOpenPosition r = false := by
    intro h
    unfold canOpenPosition
    by_cases h1 : r.openPositions ≥ r.maxOpenPositions
    · rw [if_pos h1]
    · rw [if_neg h1, if_pos h]
  have hrej : canOpenPosition r = false →
      validateOrder r symbol q p = (false, riskLimitMsg) := by
    intro h
    unfold validateOrder
    rw [if_pos (by simp [h])]
  refine ⟨fun h => hrej (hfail1 h), fun h => hrej (hfail2 h), ?_, ?_, ?_,
    fun h _ => hrej (hfail1 h)⟩
  · intro hok hbig
    unfold validateOrder
    rw [if_neg (by simp [hok]), if_pos hbig]
  · intro hok hbig hsmall
    unfold validateOrder
    rw [if_neg (by simp [hok]), if_neg hbig, if_pos hsmall]
  · intro hok hbig hsmall
    unfold validateOrder
    rw [if_neg (by simp [hok]), if_neg hbig, if_neg hsmall]

/-- Witness for C3's amended behavior: the simultaneous breach of the
open-position limit and the max-order-value bound yields the shared
risk-limit reason, and the order-value rejections do occur with their
own reasons when the gate is otherwise open. -/
theorem c3_validate_order_fixed_sequence_witness :
    validateOrder c3StateA "X" 100 1000 = (false, riskLimitMsg) ∧
    validateOrder (RiskState.init 100000) "X" 100 1000 =
      (false, exceedsMsg (100 * 1000) ((RiskState.init 100000).capital * (3/10))) ∧
    validateOrder (RiskState.init 100000) "X" 1 100 = (false, tooSmallMsg) ∧
    validateOrder (RiskState.init 100000) "X" 1 1000 = (true, validatedMsg) := by
  refine ⟨?_, ?_, ?_, ?_⟩
  · exact (c3_validate_order_fixed_sequence c3StateA "X" 100 1000).2.2.2.2.2
      (by norm_num [c3StateA]) (by norm_num [c3StateA])
  · exact (c3_validate_order_fixed_sequence (RiskState.init 100000) "X" 100 1000).2.2.1
      (by norm_num [canOpenPosition, RiskState.init]) (by norm_num [RiskState.init])
  · exact (c3_validate_order_fixed_sequence (RiskState.init 100000) "X" 1 100).2.2.2.1
      (by norm_num [canOpenPosition, RiskState.init]) (by norm_num [RiskState.init])
      (by norm_num)
  · exact (c3_validate_order_fixed_sequence (RiskState.init 100000) "X" 1 1000).2.2.2.2.1
      (by norm_num [canOpenPosition, RiskState.init]) (by norm_num [RiskState.init])
      (by norm_num)

theorem btStep_hold (commission : ℚ) (st : BTLoop) (row : (ℕ × ℚ) × ℤ)
    (hpos : st.position = 0) (hsig : row.2 = 0) :
    btStep commission st row = { st with pvs := st.pvs ++ [st.capital] } := by
  unfold btStep
  rw [hsig, hpos]
  norm_num

theorem btFold_hold (commission : ℚ) (rows : List ((ℕ × ℚ) × ℤ)) (st : BTLoop)
    (hpos : st.position = 0) (hsig : ∀ r ∈ rows, r.2 = 0) :
    rows.foldl (btStep commission) st =
      { st with pvs := st.pvs ++ List.replicate rows.length st.capital } := by
  induction rows generalizing st with
  | nil => simp
  | cons row rest ih =>
    rw [List.foldl_cons, btStep_hold commission st row hpos (hsig row (by simp))]
    rw [ih { st with pvs := st.pvs ++ [st.capital] } hpos
      (fun r hr => hsig r (by simp [hr]))]
    simp [List.replicate_succ, List.append_assoc]

theorem scanl_max_replicate (m : ℕ) (c : ℚ) :
    List.scanl (fun a b => max a b) c (List.replicate m c) = List.replicate (m + 1) c := by
  induction m with
  | zero => simp
  | succ k ih =>
    rw [List.replicate_succ, List.scanl_cons, max_self]
    rw [ih]
    simp [List.replicate_succ]

theorem cummaxList_replicate (n : ℕ) (c : ℚ) :
    cummaxList (List.replicate n c) = List.replicate n c := by
  cases n with
  | zero => rfl
  | succ m =>
    rw [List.replicate_succ]
    unfold cummaxList
    exact scanl_max_replicate m c

theorem foldl_min_replicate (m : ℕ) (c : ℚ) :
    (List.replicate m c).foldl min c = c := by
  induction m with
  | zero => rfl
  | succ k ih =>
    rw [List.replicate_succ, List.foldl_cons, min_self]
    exact ih

theorem listMin_replicate (n : ℕ) (c : ℚ) (hn : 0 < n) :
    listMin (List.replicate n c) = some c := by
  cases n with
  | zero => omega
  | succ m =>
    rw [List.replicate_succ]
    show some (List.foldl min c (List.replicate m c)) = some c
    rw [foldl_min_replicate]

theorem maxDrawdownOf_replicate (n : ℕ) (c : ℚ) (hn : 0 < n) (hc : c ≠ 0) :
    maxDrawdownOf (List.replicate n c) = EF.val 0 := by
  have hz : List.zipWith (fun p m => (p - m) / m) (List.replicate n c) (List.replicate n c)
      = List.replicate n (0 : ℚ) := by
    rw [List.zipWith_replicate]
    simp
  show (match listMin (List.zipWith (fun p m => (p - m) / m) (List.replicate n c)
        (cummaxList (List.replicate n c))) with
      | none => EF.nan
      | some m => EF.val (m * 100)) = EF.val 0
  rw [cummaxList_replicate, hz, listMin_replicate n 0 hn]
  norm_num

theorem zipWith_pct_replicate (m : ℕ) (c : ℚ) (hc : c ≠ 0) :
    List.zipWith (fun cur prev => cur / prev - 1)
      (List.replicate m c) (c :: List.replicate m c) = List.replicate m (0 : ℚ) := by
  induction m with
  | zero => rfl
  | succ k ih =>
    rw [List.replicate_succ, List.zipWith_cons_cons, div_self hc]
    rw [ih]
    norm_num [List.replicate_succ]

theorem pctChange_replicate (n : ℕ) (c : ℚ) (hc : c ≠ 0) :
    pctChange (List.replicate n c) = List.replicate (n - 1) (0 : ℚ) := by
  cases n with
  | zero => rfl
  | succ m =>
    unfold pctChange
    rw [List.replicate_succ, List.tail_cons, Nat.add_sub_cancel]
    exact zipWith_pct_replicate m c hc

theorem sharpeOf_short (pvs : List ℚ) (h : pvs.length ≤ 1) :
    sharpeOf pvs = SharpeVal.intZero := by
  cases pvs with
  | nil => rfl
  | cons x rest =>
    cases rest with
    | nil => rfl
    | cons y rest2 => simp at h

theorem listMean_replicate_zero (k : ℕ) : listMean (List.replicate k (0 : ℚ)) = 0 := by
  unfold listMean
  simp

theorem sampleVar_replicate_zero (k : ℕ) : sampleVar (List.replicate k (0 : ℚ)) = 0 := by
  unfold sampleVar
  rw [listMean_replicate_zero]
  have h : (List.replicate k (0 : ℚ)).map (fun x => (x - 0) ^ 2)
      = List.replicate k (0 : ℚ) := by
    rw [List.map_replicate]
    norm_num
  rw [h]
  simp

theorem sharpeOf_replicate_flat (n : ℕ) (c : ℚ) (hc : c ≠ 0) (hn : 3 ≤ n) :
    sharpeOf (List.replicate n c) = SharpeVal.ninf := by
  simp only [sharpeOf]
  rw [pctChange_replicate n c hc, List.length_replicate]
  rw [if_neg (by omega), if_neg (by omega)]
  rw [listMean_replicate_zero, sampleVar_replicate_zero]
  rw [if_pos rfl]
  rw [if_neg (by norm_num), if_neg (by norm_num)]

theorem sharpeOf_replicate_two (c : ℚ) (hc : c ≠ 0) :
    sharpeOf (List.replicate 2 c) = SharpeVal.nan := by
  simp only [sharpeOf]
  rw [pctChange_replicate 2 c hc]
  norm_num

/-- Characterization of Backtester.run when the strategy emits Hold at
every index: no trade fires, the equity curve is constant at the
initial capital, and the metrics reduce to those of the constant
curve. -/
theorem btRun_hold (signalsOf : List ℚ → List ℤ) (closes : List ℚ) (cap comm : ℚ)
    (hsig : ∀ z ∈ signalsOf closes, z = 0)
    (hlen : (signalsOf closes).length = closes.length) :
    btRun signalsOf closes cap comm =
      { initialCapital := cap, finalCapital := cap, totalReturn := 0,
        totalTrades := 0, winningTrades := 0, losingTrades := 0,
        winRate := 0, avgWin := 0, avgLoss := 0,
        maxDrawdown := maxDrawdownOf (List.replicate closes.length cap),
        sharpe := sharpeOf (List.replicate closes.length cap),
        trades := [], portfolioValues := List.replicate closes.length cap } := by
  simp only [btRun]
  have hrows : ∀ r ∈ (closes.enum.zip (signalsOf closes)), r.2 = 0 := by
    intro r hr
    exact hsig r.2 (List.of_mem_zip hr).2
  have hrowlen : (closes.enum.zip (signalsOf closes)).length = closes.length := by
    rw [List.length_zip, List.enum_length, hlen]
    omega
  rw [btFold_hold comm _ _ rfl hrows, hrowlen]
  norm_num

theorem btRun_empty (signalsOf : List ℚ → List ℤ) (cap comm : ℚ) :
    btRun signalsOf [] cap comm =
      { initialCapital := cap, finalCapital := cap, totalReturn := 0,
        totalTrades := 0, winningTrades := 0, losingTrades := 0,
        winRate := 0, avgWin := 0, avgLoss := 0,
        maxDrawdown := EF.nan, sharpe := SharpeVal.intZero,
        trades := [], portfolioValues := [] } := by
  simp only [btRun]
  norm_num [maxDrawdownOf, cummaxList, listMin, sharpeOf, pctChange]

/-- Evaluation of C4 at its failing input: on the 3-bar constant price
series 100, 100, 100 the MA-crossover strategy emits Hold at every
index, and Backtester.run indeed yields total_return 0, total_trades 0
and max_drawdown 0 — but the Sharpe expression divides a nonzero
excess mean by a zero standard deviation and evaluates to -inf, not 0
(and to NaN on the 2-bar series, where the single return observation
has NaN sample standard deviation); the guard in the code only covers
the case of zero return observations. -/
theorem c4_sharpe_not_zero_on_flat_series :
    (btRun (stratSignals (.maCross 20 50 .sma)) [100, 100, 100] 100000 (1/1000)).totalReturn = 0 ∧
    (btRun (stratSignals (.maCross 20 50 .sma)) [100, 100, 100] 100000 (1/1000)).totalTrades = 0 ∧
    (btRun (stratSignals (.maCross 20 50 .sma)) [100, 100, 100] 100000 (1/1000)).maxDrawdown
      = EF.val 0 ∧
    (btRun (stratSignals (.maCross 20 50 .sma)) [100, 100, 100] 100000 (1/1000)).sharpe
      = SharpeVal.ninf ∧
    (btRun (stratSignals (.maCross 20 50 .sma)) [100, 100] 100000 (1/1000)).sharpe
      = SharpeVal.nan := by
  have hsig3 : stratSignals (.maCross 20 50 .sma) [100, 100, 100] = [0, 0, 0] := by decide
  have hsig2 : stratSignals (.maCross 20 50 .sma) [100, 100] = [0, 0] := by decide
  have hrun3 := btRun_hold (stratSignals (.maCross 20 50 .sma)) [100, 100, 100] 100000 (1/1000)
    (by rw [hsig3]; decide) (by rw [hsig3]; rfl)
  have hrun2 := btRun_hold (stratSignals (.maCross 20 50 .sma)) [100, 100] 100000 (1/1000)
    (by rw [hsig2]; decide) (by rw [hsig2]; rfl)
  rw [hrun3, hrun2]
  refine ⟨rfl, rfl, ?_, ?_, ?_⟩
  · exact maxDrawdownOf_replicate 3 100000 (by omega) (by norm_num)
  · exact sharpeOf_replicate_flat 3 100000 (by norm_num) (by omega)
  · exact sharpeOf_replicate_two 100000 (by norm_num)

/-- Counterexample to C9's "zeroed metrics": on the empty price series
the max-drawdown expression takes the minimum of an empty series,
which is NaN, not 0 (while trades, the equity curve and the return are
indeed empty/zero and nothing raises). -/
theorem c9_cex :
    (btRun (stratSignals (.maCross 20 50 .sma)) [] 100000 (1/1000)).maxDrawdown = EF.nan ∧
    EF.nan ≠ EF.val 0 ∧
    (btRun (stratSignals (.maCross 20 50 .sma)) [] 100000 (1/1000)).totalTrades = 0 ∧
    (btRun (stratSignals (.maCross 20 50 .sma)) [] 100000 (1/1000)).trades = [] := by
  have h := btRun_hold (stratSignals (.maCross 20 50 .sma)) [] 100000 (1/1000)
    (by decide) (by decide)
  rw [h]
  refine ⟨rfl, by simp, rfl, rfl⟩

/-- C9 as the code actually behaves: the run never raises on missing
data (the embedding is total on every series); on the empty series the
result has zero trades, an empty trade log and equity curve, zero
total return and Sharpe 0, but max_drawdown NaN; on a one-bar series —
too short for any indicator window — every metric is zeroed, including
max_drawdown 0 and Sharpe 0. -/
theorem c9_empty_or_short_series (signalsOf : List ℚ → List ℤ) (cap comm c : ℚ)
    (hcap : 0 < cap) (hc : 0 < c) :
    btRun signalsOf [] cap comm =
      { initialCapital := cap, finalCapital := cap, totalReturn := 0,
        totalTrades := 0, winningTrades := 0, losingTrades := 0,
        winRate := 0, avgWin := 0, avgLoss := 0,
        maxDrawdown := EF.nan, sharpe := SharpeVal.intZero,
        trades := [], portfolioValues := [] } ∧
    btRun (stratSignals (.maCross 20 50 .sma)) [c] cap comm =
      { initialCapital := cap, finalCapital := cap, totalReturn := 0,
        totalTrades := 0, winningTrades := 0, losingTrades := 0,
        winRate := 0, avgWin := 0, avgLoss := 0,
        maxDrawdown := EF.val 0, sharpe := SharpeVal.intZero,
        trades := [], portfolioValues := [cap] } := by
  constructor
  · rw [btRun_empty signalsOf cap comm]
  · have hsig : stratSignals (.maCross 20 50 .sma) [c] = [0] := by
      norm_num [stratSignals, crossSigAt, rollingMean, rmAt, List.range_succ,
        oLt, oGt, oGe, oLe]
    have h := btRun_hold (stratSignals (.maCross 20 50 .sma)) [c] cap comm
      (by rw [hsig]; simp) (by rw [hsig]; rfl)
    rw [h]
    have hdd := maxDrawdownOf_replicate 1 cap (by omega) (ne_of_gt hcap)
    have hsh := sharpeOf_short (List.replicate 1 cap) (by simp)
    rw [show ([c] : List ℚ).length = 1 from rfl, hdd, hsh]
    simp

/-- Witness for C9 at concrete capital and close price. -/
theorem c9_empty_or_short_series_witness :
    btRun (stratSignals (.maCross 20 50 .sma)) [] 100000 (1/1000) =
      { initialCapital := 100000, finalCapital := 100000, totalReturn := 0,
        totalTrades := 0, winningTrades := 0, losingTrades := 0,
        winRate := 0, avgWin := 0, avgLoss := 0,
        maxDrawdown := EF.nan, sharpe := SharpeVal.intZero,
        trades := [], portfolioValues := [] } ∧
    btRun (stratSignals (.maCross 20 50 .sma)) [(50 : ℚ)] 100000 (1/1000) =
      { initialCapital := 100000, finalCapital := 100000, totalReturn := 0,
        totalTrades := 0, winningTrades := 0, losingTrades := 0,
        winRate := 0, avgWin := 0, avgLoss := 0,
        maxDrawdown := EF.val 0, sharpe := SharpeVal.intZero,
        trades := [], portfolioValues := [100000] } :=
  c9_empty_or_short_series (stratSignals (.maCross 20 50 .sma)) 100000 (1/1000) 50
    (by norm_num) (by norm_num)
